import Mathlib

/-!
Verification development for the MTATrainTimes repository.

Shallow embedding of the core logic:
 - `src/mta_client.py` : trips.txt direction mapping (`load_trips_file`),
   feed aggregation (`parse_feed`), countdown (`Train.get_minutes_to_arrival`);
 - `src/display_manager.py` : marquee offset (`_calculate_slide_offset`),
   countdown formatting (`format_time_text`), frame composition
   (`render_frame` / `draw_clipping_rectangles`);
 - `src/config.py` : shipped route configuration (`Config.ROUTE_IDS`).

Python strings are embedded as `List Char` so that prefix/suffix reasoning
is elementary; machine integers and Unix timestamps are embedded as `Int`.
-/

namespace MTA

/-- Python strings (stop ids, route ids, trip ids, headsigns) as `List Char`. -/
abbrev Str := List Char

/-- The two bounds; `load_trips_file` stores `"northbound"`/`"southbound"`. -/
inductive Direction where
  | northbound
  | southbound
deriving DecidableEq

/-- One `stop_time_update` entry of a GTFS-RT trip update.  The `arrival`
field is `some t` exactly when the protobuf `HasField("arrival")` holds,
with `t` the value of `stop_time.arrival.time`; likewise `departure`. -/
structure StopTimeUpdate where
  stop_id : Str
  arrival : Option Int
  departure : Option Int
deriving DecidableEq

/-- One trip update (the code reads `trip.trip_id`, `trip.route_id` and the
`stop_time_update` list). -/
structure TripUpdate where
  trip_id : Str
  route_id : Str
  stop_time_update : List StopTimeUpdate
deriving DecidableEq

/-- A feed entity; `trip_update = none` models `HasField("trip_update")`
being false. -/
structure FeedEntity where
  trip_update : Option TripUpdate
deriving DecidableEq

/-- The record `load_trips_file` stores per trip id in `trips_map`. -/
structure TripInfo where
  destination : Str
  direction : Direction
  route_id : Str
deriving DecidableEq

/-- The `Train` class of `mta_client.py` (`arrival_time` is a Unix epoch). -/
structure Train where
  route_id : Str
  destination : Str
  arrival_time : Int
  direction : Direction
deriving DecidableEq

/-- The result dictionary of `parse_feed`:
`{"northbound": [...], "southbound": [...]}`. -/
structure Trains where
  northbound : List Train
  southbound : List Train
deriving DecidableEq

/-- Select one bound's list from a `Trains` value. -/
def boundList (r : Trains) : Direction → List Train
  | .northbound => r.northbound
  | .southbound => r.southbound

/-- Direction assignment of `load_trips_file` (mta_client.py lines 75-79):
`direction_id = row.get('direction_id', '0')` followed by
`direction = "northbound" if direction_id == '0' else "southbound"`.
`none` models the `direction_id` column being absent from the CSV row. -/
def tripDirection (direction_id : Option Str) : Direction :=
  if direction_id.getD ['0'] = ['0'] then .northbound else .southbound

/-- The route filter of `parse_feed` (lines 158-161): when `route_ids` is
`None` every route passes; otherwise membership is required. -/
def routeAllowed (route_ids : Option (List Str)) (route_id : Str) : Bool :=
  match route_ids with
  | none => true
  | some rids => route_id ∈ rids

/-- The target-stop test of `parse_feed` (lines 195-207): exact match,
match with the bound's `N`/`S` suffix, or `current_stop_id.startswith(stop_id)`. -/
def stopIsTarget (stop_id : Str) (direction : Direction) (current : Str) : Bool :=
  current = stop_id
    || (direction = .northbound && current = stop_id ++ ['N'])
    || (direction = .southbound && current = stop_id ++ ['S'])
    || stop_id.isPrefixOf current

/-- Arrival-time selection inside the matched branch (lines 210-215):
`arrival.time` when the arrival field is present, else `departure.time`
when present, else `None`. -/
def stopEventTime (st : StopTimeUpdate) : Option Int :=
  match st.arrival with
  | some t => some t
  | none => st.departure

/-- The stop-scanning loop of `parse_feed` (lines 190-228): walk the
`stop_time_update` list; at the first target stop, keep the selected time
when it is truthy (`if arrival_time:` rejects `None` and `0`) and break. -/
def extractArrival (stop_id : Str) (direction : Direction) :
    List StopTimeUpdate → Option Int
  | [] => none
  | st :: rest =>
    if stopIsTarget stop_id direction st.stop_id then
      match stopEventTime st with
      | some t => if t ≠ 0 then some t else none
      | none => none
    else extractArrival stop_id direction rest

/-- Appending to `trains[direction]` in `parse_feed` (line 224). -/
def appendTrain (acc : Trains) (t : Train) : Trains :=
  match t.direction with
  | .northbound => { acc with northbound := acc.northbound ++ [t] }
  | .southbound => { acc with southbound := acc.southbound ++ [t] }

/-- Processing of one feed entity in the main loop of `parse_feed`
(lines 149-228): skip entities without a trip update, apply the route
filter, skip trips absent from `trips_map`, then scan the stop events. -/
def processEntity (trips_map : Str → Option TripInfo) (stop_id : Str)
    (route_ids : Option (List Str)) (acc : Trains) (e : FeedEntity) : Trains :=
  match e.trip_update with
  | none => acc
  | some tu =>
    if routeAllowed route_ids tu.route_id then
      match trips_map tu.trip_id with
      | none => acc
      | some info =>
        match extractArrival stop_id info.direction tu.stop_time_update with
        | none => acc
        | some t =>
          appendTrain acc
            { route_id := tu.route_id
              destination := info.destination
              arrival_time := t
              direction := info.direction }
    else acc

/-- The comparison key of `trains[direction].sort(key=lambda t: t.arrival_time)`. -/
def trainLE (t1 t2 : Train) : Prop :=
  t1.arrival_time ≤ t2.arrival_time

instance : DecidableRel trainLE := fun t1 t2 => by
  unfold trainLE; infer_instance

/-- Post-processing of one bound's list (lines 235-238): stable sort by
arrival time, then truncation to the top 5.  Python's `list.sort` is a
stable sort, and all stable sorts under the same total preorder agree, so
it is embedded as the stable `insertionSort`. -/
def sortAndCap (l : List Train) : List Train :=
  (List.insertionSort trainLE l).take 5

/-- The accumulation phase of `parse_feed` over all feed entities, starting
from `trains = {"northbound": [], "southbound": []}`. -/
def collectTrains (feed : List FeedEntity) (stop_id : Str)
    (route_ids : Option (List Str)) (trips_map : Str → Option TripInfo) : Trains :=
  feed.foldl (processEntity trips_map stop_id route_ids) ⟨[], []⟩

/-- `MTAClient.parse_feed` (lines 124-250) for a configured base stop id
(the `stop_id is None` discovery branch is not exercised by the claims).
Collect matching trains, then sort each bound's list and cap it at 5. -/
def parse_feed (feed : List FeedEntity) (stop_id : Str)
    (route_ids : Option (List Str)) (trips_map : Str → Option TripInfo) : Trains :=
  let c := collectTrains feed stop_id route_ids trips_map
  ⟨sortAndCap c.northbound, sortAndCap c.southbound⟩

/-- Spec-style first-match extraction used to characterise `extractArrival`:
the first stop event whose id extends the base stop id, with arrival time
falling back to departure time, rejecting absent or zero times. -/
def firstMatchTime (stop_id : Str) (events : List StopTimeUpdate) : Option Int :=
  (events.find? fun st => stop_id.isPrefixOf st.stop_id).bind fun st =>
    match stopEventTime st with
    | some t => if t ≠ 0 then some t else none
    | none => none

/-- `Train.get_minutes_to_arrival` (mta_client.py lines 28-33):
`max(0, int((arrival_time - now) / 60))`; Python `int(...)` truncates
toward zero, hence `Int.tdiv`. -/
def get_minutes_to_arrival (arrival_time : Int) (now : Int) : Int :=
  max 0 ((arrival_time - now).tdiv 60)

/-- `DisplayManager.format_time_text` (display_manager.py lines 556-563). -/
def format_time_text (minutes : Int) : String :=
  if minutes = 0 then "NOW"
  else if minutes = 1 then "1m"
  else toString minutes ++ "m"

/-- `Config.ROUTE_IDS` (config.py line 27): the shipped default is the empty
list (`ROUTE_IDS = []`), not `None`; in the `Option` embedding of
`parse_feed`'s `route_ids` argument this is `some []`. -/
def Config_ROUTE_IDS : Option (List Str) := some []

/-- `DisplayManager._calculate_slide_offset` (display_manager.py lines
493-554), with the measured text width, the available width, the frame
counter and the `SLIDE_CONFIG` values `pause_frames` and `cycle_duration`
as inputs.  Python's `//` is `Int.fdiv` and `int(...)` applied to the
(exact) quotient is `Int.tdiv` of the cross-multiplied numerator.  The two
`0` short-circuits embed the `except` handler, which catches the
`ZeroDivisionError` raised when `cycle` is `0` (the `% cycle` step) or when
`slide_frames` is `0` and the slide-back division runs, and returns `0`. -/
def calculate_slide_offset (text_width max_width frame_count pause cycle : ℕ) : ℤ :=
  if text_width ≤ max_width then 0
  else if cycle = 0 then 0
  else
    let dist : ℤ := (text_width : ℤ) - (max_width : ℤ) + 5
    let sf : ℤ := ((cycle : ℤ) - 2 * (pause : ℤ)).fdiv 2
    let frame : ℤ := ((frame_count % cycle : ℕ) : ℤ)
    if frame < (pause : ℤ) then 0
    else if frame < (pause : ℤ) + sf then
      ((frame - (pause : ℤ)) * dist).tdiv sf
    else if frame < (pause : ℤ) + sf + (pause : ℤ) then dist
    else if sf = 0 then 0
    else (dist * sf - (frame - ((pause : ℤ) + sf + (pause : ℤ))) * dist).tdiv sf

/-- The shipped `SLIDE_CONFIG['pause_frames']` (display_manager.py line 64). -/
def SLIDE_PAUSE_FRAMES : ℕ := 30

/-- The shipped `SLIDE_CONFIG['cycle_duration']` (display_manager.py line 65). -/
def SLIDE_CYCLE_DURATION : ℕ := 120

/-! ### Pixel-canvas model for `render_frame`

The 64x32 image is a function from coordinates to RGB colours.  Text,
badge and header draws are abstracted as paints: partial pixel maps
applied on top of the canvas (glyph rasterisation is external to the
core).  Rectangle fills are total on their region, which is exactly what
`ImageDraw.rectangle(..., fill=...)` does. -/

/-- An RGB colour. -/
abbrev Color := ℕ × ℕ × ℕ

/-- A pixel coordinate `(x, y)`. -/
abbrev Pt := ℕ × ℕ

/-- The black background / clipping colour. -/
def black : Color := (0, 0, 0)

/-- A full frame of pixels. -/
abbrev Canvas := Pt → Color

/-- An abstract draw operation: the set of pixels it touches and their
colours.  `none` means the draw leaves that pixel unchanged. -/
abbrev Paint := Pt → Option Color

/-- Apply a paint on top of a canvas. -/
def applyPaint (g : Paint) (c : Canvas) : Canvas :=
  fun p => (g p).getD (c p)

/-- `DisplayManager.DISPLAY_WIDTH`. -/
def DISPLAY_WIDTH : ℕ := 64

/-- `DisplayManager.HEADER_HEIGHT`. -/
def HEADER_HEIGHT : ℕ := 5

/-- `DisplayManager.ROW_HEIGHT`. -/
def ROW_HEIGHT : ℕ := 12

/-- `DisplayManager.COL_WIDTHS[0]` (badge column width). -/
def COL0_WIDTH : ℕ := 12

/-- `DisplayManager.COL_WIDTHS[1]` (destination column width). -/
def COL1_WIDTH : ℕ := 30

/-- `DisplayManager.DEST_MAX_WIDTH`. -/
def DEST_MAX_WIDTH : ℕ := 28

/-- `row_y` for row `idx` in `render_frame`:
`HEADER_HEIGHT + idx * ROW_HEIGHT + 2`. -/
def rowY (idx : ℕ) : ℕ := HEADER_HEIGHT + idx * ROW_HEIGHT + 2

/-- `ImageDraw.rectangle([(x1, y1), (x2, y2)], fill=col)`: inclusive corners. -/
def fillRect (x1 y1 x2 y2 : ℕ) (col : Color) (c : Canvas) : Canvas :=
  fun p => if x1 ≤ p.1 ∧ p.1 ≤ x2 ∧ y1 ≤ p.2 ∧ p.2 ≤ y2 then col else c p

/-- `DisplayManager.draw_clipping_rectangles` (display_manager.py lines
354-380): an opaque black rectangle over `x ∈ [0, x_pos+2-1]` and another
over `x ∈ [x_pos+2+DEST_MAX_WIDTH, DISPLAY_WIDTH-1]`, both spanning the
row band `y ∈ [y_pos, y_pos+ROW_HEIGHT-1]`. -/
def draw_clipping_rectangles (x_pos y_pos : ℕ) (c : Canvas) : Canvas :=
  fillRect (x_pos + 2 + DEST_MAX_WIDTH) y_pos (DISPLAY_WIDTH - 1) (y_pos + ROW_HEIGHT - 1) black
    (fillRect 0 y_pos (x_pos + 2 - 1) (y_pos + ROW_HEIGHT - 1) black c)

/-- One rendered train's draw operations in `render_frame`: the
destination-text paint (step 1), the badge paint and the countdown-text
paint (step 3).  Glyph rasterisation is external, so each is an abstract
paint. -/
abbrev RowPaints := Paint × Paint × Paint

/-- STEP 1 of `render_frame` (display_manager.py lines 228-233): the
destination texts of the rendered trains, drawn in row order. -/
def drawDests : List RowPaints → Canvas → Canvas
  | [], c => c
  | r :: rest, c => drawDests rest (applyPaint r.1 c)

/-- STEP 2 of `render_frame` (lines 235-239): one pair of clipping
rectangles per rendered train, at that train's row (`row_y` of its index);
a row without a train gets none. -/
def drawClips : ℕ → List RowPaints → Canvas → Canvas
  | _, [], c => c
  | idx, _ :: rest, c =>
    drawClips (idx + 1) rest (draw_clipping_rectangles COL0_WIDTH (rowY idx) c)

/-- STEP 3 of `render_frame` (lines 241-266): badge then countdown text,
per rendered train, in row order. -/
def drawBadgesTimes : List RowPaints → Canvas → Canvas
  | [], c => c
  | r :: rest, c => drawBadgesTimes rest (applyPaint r.2.2 (applyPaint r.2.1 c))

/-- `DisplayManager.render_frame` (display_manager.py lines 212-276) on a
black canvas: each of the up to two rendered trains (`trains[:2]`)
contributes a destination paint, a badge paint and a countdown paint;
steps 1-3 loop over those trains only — a row without a train gets no
draws and no clipping rectangles — and the header is drawn last (step 4). -/
def render_frame (rows : List RowPaints) (header : Paint) : Canvas :=
  applyPaint header
    (drawBadgesTimes (rows.take 2)
      (drawClips 0 (rows.take 2)
        (drawDests (rows.take 2) (fun _ => black))))

/-- The badge-column area of row `idx`: `x < COL_WIDTHS[0]`, inside the
row band. -/
def inBadgeColumn (idx : ℕ) (p : Pt) : Prop :=
  p.1 < COL0_WIDTH ∧ rowY idx ≤ p.2 ∧ p.2 ≤ rowY idx + ROW_HEIGHT - 1

/-- The countdown-column area of row `idx`:
`COL_WIDTHS[0] + COL_WIDTHS[1] ≤ x < DISPLAY_WIDTH`, inside the row band. -/
def inTimeColumn (idx : ℕ) (p : Pt) : Prop :=
  COL0_WIDTH + COL1_WIDTH ≤ p.1 ∧ p.1 ≤ DISPLAY_WIDTH - 1 ∧
    rowY idx ≤ p.2 ∧ p.2 ≤ rowY idx + ROW_HEIGHT - 1

/-! ### Helper lemmas -/

instance : IsTrans Train trainLE :=
  ⟨fun _ _ _ hab hbc => le_trans hab hbc⟩

instance : IsTotal Train trainLE :=
  ⟨fun a b => le_total a.arrival_time b.arrival_time⟩

/-- With an empty (but non-`None`) route list, every entity is filtered out. -/
theorem processEntity_empty_routes (trips_map : Str → Option TripInfo)
    (stop_id : Str) (acc : Trains) (e : FeedEntity) :
    processEntity trips_map stop_id (some []) acc e = acc := by
  unfold processEntity
  cases e.trip_update with
  | none => rfl
  | some tu => simp [routeAllowed]

/-- The target-stop test of `parse_feed` collapses to a prefix test: the
exact and suffixed matches are special cases of `startswith`. -/
theorem stopIsTarget_eq_startsWith (s : Str) (d : Direction) (c : Str) :
    stopIsTarget s d c = s.isPrefixOf c := by
  unfold stopIsTarget
  cases hP : s.isPrefixOf c with
  | true => simp
  | false =>
    have hP' : ¬ s <+: c := by
      rw [← @List.isPrefixOf_iff_prefix Char _ _ s c]
      simp [hP]
    have hA : ¬ (c = s) := by rintro rfl; exact hP' (List.prefix_refl _)
    have hB : ¬ (c = s ++ ['N']) := by rintro rfl; exact hP' (List.prefix_append _ _)
    have hC : ¬ (c = s ++ ['S']) := by rintro rfl; exact hP' (List.prefix_append _ _)
    simp [hA, hB, hC]

/-- Projection of `parse_feed` through `boundList`. -/
theorem boundList_parse_feed (feed : List FeedEntity) (stop_id : Str)
    (route_ids : Option (List Str)) (trips_map : Str → Option TripInfo)
    (d : Direction) :
    boundList (parse_feed feed stop_id route_ids trips_map) d =
      sortAndCap (boundList (collectTrains feed stop_id route_ids trips_map) d) := by
  cases d <;> rfl

/-- Route-membership invariant for the accumulator. -/
def routesOK (rids : List Str) (acc : Trains) : Prop :=
  (∀ t ∈ acc.northbound, t.route_id ∈ rids) ∧
    (∀ t ∈ acc.southbound, t.route_id ∈ rids)

theorem processEntity_routesOK (trips_map : Str → Option TripInfo)
    (stop_id : Str) (rids : List Str) (acc : Trains) (e : FeedEntity)
    (h : routesOK rids acc) :
    routesOK rids (processEntity trips_map stop_id (some rids) acc e) := by
  unfold processEntity
  cases he : e.trip_update with
  | none => exact h
  | some tu =>
    dsimp only
    by_cases hr : routeAllowed (some rids) tu.route_id = true
    · rw [if_pos hr]
      have hrid : tu.route_id ∈ rids := by simpa [routeAllowed] using hr
      cases hm : trips_map tu.trip_id with
      | none => exact h
      | some info =>
        dsimp only
        cases hx : extractArrival stop_id info.direction tu.stop_time_update with
        | none => exact h
        | some t =>
          dsimp only
          have happ : ∀ (l : List Train) (tr : Train), tr.route_id = tu.route_id →
              (∀ t' ∈ l, t'.route_id ∈ rids) →
              ∀ t' ∈ l ++ [tr], t'.route_id ∈ rids := by
            intro l tr htr hl t' ht'
            rcases List.mem_append.mp ht' with h1 | h1
            · exact hl t' h1
            · rw [List.mem_singleton.mp h1, htr]; exact hrid
          unfold appendTrain
          dsimp only
          cases info.direction with
          | northbound => exact ⟨happ _ _ rfl h.1, h.2⟩
          | southbound => exact ⟨h.1, happ _ _ rfl h.2⟩
    · rw [if_neg hr]; exact h

theorem collectTrains_routesOK (feed : List FeedEntity) (stop_id : Str)
    (rids : List Str) (trips_map : Str → Option TripInfo) :
    routesOK rids (collectTrains feed stop_id (some rids) trips_map) := by
  unfold collectTrains
  have h : ∀ (l : List FeedEntity) (acc : Trains), routesOK rids acc →
      routesOK rids (l.foldl (processEntity trips_map stop_id (some rids)) acc) := by
    intro l
    induction l with
    | nil => intro acc hacc; exact hacc
    | cons e rest ih =>
      intro acc hacc
      rw [List.foldl_cons]
      exact ih _ (processEntity_routesOK trips_map stop_id rids acc e hacc)
  exact h feed ⟨[], []⟩ ⟨by simp, by simp⟩

/-! ### Claims -/

/-- Claim C4: for every trip whose `direction_id` is present and is exactly
`'0'` or `'1'`, the direction stored by `load_trips_file` is northbound if
and only if `direction_id == '0'` (and southbound iff it is `'1'`). -/
theorem tripDirection_binary :
    ∀ s : Str, s = ['0'] ∨ s = ['1'] →
      (tripDirection (some s) = .northbound ↔ s = ['0']) := by
  rintro s (rfl | rfl) <;> simp [tripDirection]

theorem tripDirection_binary_witness :
    ((['0'] : Str) = ['0'] ∨ (['0'] : Str) = ['1'])
      ∧ tripDirection (some ['0']) = .northbound :=
  ⟨Or.inl rfl, (tripDirection_binary ['0'] (Or.inl rfl)).mpr rfl⟩

/-- Claim C3, counterexample: `direction_id = '2'` is present but is
neither `'0'` nor `'1'`, so the direction cannot be determined from the
trip's fields; the claimed default would be Northbound, but the code maps
every present value other than `'0'` to southbound. -/
theorem tripDirection_default_counterexample :
    tripDirection (some ['2']) = .southbound
      ∧ ¬((['2'] : Str) = ['0'] ∨ (['2'] : Str) = ['1'])
      ∧ tripDirection (some ['2']) ≠ .northbound := by
  refine ⟨by decide, by decide, by decide⟩

/-- Claim C3 (amended): direction resolution is total — it never fails and
always assigns a bound — and it defaults to Northbound when `direction_id`
is absent; however a present `direction_id` other than `'0'` (including
undeterminable values) yields Southbound.  A trip that passes the route
filter, is present in `trips_map`, and yields an arrival is appended to
its bound's list whatever its resolved direction: no trip is dropped by
direction resolution. -/
theorem tripDirection_total_default :
    (∀ did : Option Str,
        tripDirection did = .northbound ∨ tripDirection did = .southbound)
      ∧ tripDirection none = .northbound
      ∧ (∀ s : Str, s ≠ ['0'] → tripDirection (some s) = .southbound)
      ∧ (∀ (trips_map : Str → Option TripInfo) (stop_id : Str)
          (route_ids : Option (List Str)) (acc : Trains) (e : FeedEntity)
          (tu : TripUpdate) (info : TripInfo) (t : Int),
          e.trip_update = some tu →
          routeAllowed route_ids tu.route_id = true →
          trips_map tu.trip_id = some info →
          extractArrival stop_id info.direction tu.stop_time_update = some t →
          processEntity trips_map stop_id route_ids acc e =
            appendTrain acc
              { route_id := tu.route_id, destination := info.destination,
                arrival_time := t, direction := info.direction }) := by
  refine ⟨?_, ?_, ?_, ?_⟩
  · intro did
    unfold tripDirection
    split_ifs <;> simp
  · rfl
  · intro s hs
    unfold tripDirection
    rw [if_neg]
    simpa using hs
  · intro trips_map stop_id route_ids acc e tu info t he hr hm hx
    unfold processEntity
    rw [he]
    simp only [hr, if_true, hm, hx]

theorem tripDirection_total_default_witness :
    tripDirection (some ['2']) = .southbound
      ∧ processEntity (fun _ => some ⟨['W'], .southbound, ['R']⟩) ['R','3','5']
          none ⟨[], []⟩ ⟨some ⟨['t'], ['R'], [⟨['R','3','5','S'], some 9, none⟩]⟩⟩
        = appendTrain ⟨[], []⟩
            { route_id := ['R'], destination := ['W'],
              arrival_time := 9, direction := .southbound } :=
  ⟨tripDirection_total_default.2.2.1 ['2'] (by decide),
    tripDirection_total_default.2.2.2
      (fun _ => some ⟨['W'], .southbound, ['R']⟩) ['R','3','5'] none ⟨[], []⟩
      ⟨some ⟨['t'], ['R'], [⟨['R','3','5','S'], some 9, none⟩]⟩⟩
      ⟨['t'], ['R'], [⟨['R','3','5','S'], some 9, none⟩]⟩
      ⟨['W'], .southbound, ['R']⟩ 9 rfl (by decide) rfl (by decide)⟩

/-- Claim C7: the countdown is `max(0, floor((arrival − now)/60))` (the
code's truncating `int(...)` agrees with the floor once clamped at 0), it
is a function of the current time — recomputed per read, hence antitone in
`now` — and formatting maps 0 to `"NOW"`, 1 to `"1m"`, and `N > 1` to
`"{N}m"`. -/
theorem minutes_floor_and_format :
    (∀ arrival_time now : Int,
        get_minutes_to_arrival arrival_time now =
          max 0 ((arrival_time - now).fdiv 60))
      ∧ (∀ arrival_time n1 n2 : Int, n1 ≤ n2 →
          get_minutes_to_arrival arrival_time n2 ≤
            get_minutes_to_arrival arrival_time n1)
      ∧ format_time_text 0 = "NOW"
      ∧ format_time_text 1 = "1m"
      ∧ (∀ n : Int, 1 < n → format_time_text n = toString n ++ "m") := by
  have key : ∀ x : Int, max 0 (x.tdiv 60) = max 0 (x.fdiv 60) := by
    intro x
    rcases le_or_lt 0 x with hx | hx
    · rw [Int.tdiv_eq_ediv hx (by norm_num), Int.fdiv_eq_ediv _ (by norm_num)]
    · have h1 : x.tdiv 60 ≤ 0 := by
        have := @Int.tdiv_nonneg (-x) 60 (by omega) (by norm_num)
        rw [Int.neg_tdiv] at this
        omega
      have h2 : x.fdiv 60 ≤ 0 := by
        rw [Int.fdiv_eq_ediv _ (by norm_num)]
        have := @Int.ediv_le_ediv x 0 60 (by norm_num) hx.le
        simpa using this
      omega
  refine ⟨?_, ?_, rfl, rfl, ?_⟩
  · intro a now
    exact key (a - now)
  · intro a n1 n2 h
    unfold get_minutes_to_arrival
    rw [key (a - n1), key (a - n2),
      Int.fdiv_eq_ediv _ (by norm_num), Int.fdiv_eq_ediv _ (by norm_num)]
    have := @Int.ediv_le_ediv (a - n2) (a - n1) 60 (by norm_num) (by omega)
    omega
  · intro n hn
    unfold format_time_text
    rw [if_neg (by omega), if_neg (by omega)]

theorem minutes_floor_and_format_witness :
    get_minutes_to_arrival 300 0 = max 0 ((300 - 0 : Int).fdiv 60)
      ∧ get_minutes_to_arrival 300 100 ≤ get_minutes_to_arrival 300 0
      ∧ format_time_text 12 = toString (12 : Int) ++ "m" :=
  ⟨minutes_floor_and_format.1 300 0,
    minutes_floor_and_format.2.1 300 0 100 (by norm_num),
    minutes_floor_and_format.2.2.2.2 12 (by norm_num)⟩

/-- Claim C8: aggregation is total (it always returns a mapping carrying
both the northbound and the southbound list), and on an empty feed it
returns both lists empty. -/
theorem parse_feed_total_and_empty :
    (∀ (stop_id : Str) (route_ids : Option (List Str))
        (trips_map : Str → Option TripInfo),
        parse_feed [] stop_id route_ids trips_map = ⟨[], []⟩)
      ∧ (∀ (feed : List FeedEntity) (stop_id : Str)
          (route_ids : Option (List Str)) (trips_map : Str → Option TripInfo),
          ∃ nb sb : List Train,
            parse_feed feed stop_id route_ids trips_map = ⟨nb, sb⟩) := by
  constructor
  · intro stop_id route_ids trips_map
    rfl
  · intro feed stop_id route_ids trips_map
    exact ⟨(parse_feed feed stop_id route_ids trips_map).northbound,
      (parse_feed feed stop_id route_ids trips_map).southbound, rfl⟩

/-- Claim C10: the route filter distinguishes `None` from the empty list —
`None` passes every route, while the empty list filters out every trip, so
aggregation returns both bound lists empty for every feed — and the
shipped default configuration (`Config.ROUTE_IDS = []`) is the empty list. -/
theorem route_filter_none_vs_empty :
    (∀ r : Str, routeAllowed none r = true)
      ∧ (∀ (feed : List FeedEntity) (stop_id : Str)
          (trips_map : Str → Option TripInfo),
          parse_feed feed stop_id (some []) trips_map = ⟨[], []⟩)
      ∧ Config_ROUTE_IDS = some [] := by
  refine ⟨fun _ => rfl, ?_, rfl⟩
  intro feed stop_id trips_map
  have hfold : ∀ (l : List FeedEntity) (acc : Trains),
      l.foldl (processEntity trips_map stop_id (some [])) acc = acc := by
    intro l
    induction l with
    | nil => intro acc; rfl
    | cons e rest ih =>
      intro acc
      rw [List.foldl_cons, processEntity_empty_routes]
      exact ih acc
  unfold parse_feed collectTrains
  rw [hfold]
  rfl

/-- Claim C2, counterexample: for a southbound trip at base stop `"R35"`,
the stop event `"R35N"` does not equal `base + suffix = "R35S"`, yet the
scan produces an arrival from it (the `startswith` branch matches), so the
claim that no arrival is produced when no event equals base+suffix is
false. -/
theorem extractArrival_counterexample :
    extractArrival ['R','3','5'] .southbound
        [⟨['R','3','5','N'], some 100, none⟩] = some 100
      ∧ (['R','3','5','N'] : Str) ≠ ['R','3','5'] ++ ['S'] := by
  refine ⟨by decide, by decide⟩

/-- Claim C2 (amended): the scan produces an arrival only from the first
stop event whose `stop_id` starts with the base stop id (exact match and
base-plus-bound-suffix match are special cases of this prefix test, so the
matching is broader than base+suffix); it produces none when no event's
`stop_id` starts with the base.  When a matching event is found, its
arrival time is used, falling back to its departure time if the arrival is
absent, and no arrival is produced if neither is present (or if the
selected timestamp is 0, which Python's truthiness test also rejects). -/
theorem extractArrival_first_prefix_match :
    ∀ (stop_id : Str) (direction : Direction) (events : List StopTimeUpdate),
      extractArrival stop_id direction events = firstMatchTime stop_id events
      ∧ ((∀ st ∈ events, ¬ stop_id <+: st.stop_id) →
          extractArrival stop_id direction events = none) := by
  intro s d events
  have h1 : extractArrival s d events = firstMatchTime s events := by
    induction events with
    | nil => rfl
    | cons st rest ih =>
      unfold extractArrival firstMatchTime
      rw [stopIsTarget_eq_startsWith]
      cases h : s.isPrefixOf st.stop_id with
      | true =>
        rw [@List.find?_cons_of_pos _ (fun st : StopTimeUpdate => s.isPrefixOf st.stop_id)
          st rest h]
        simp
      | false =>
        rw [@List.find?_cons_of_neg _ (fun st : StopTimeUpdate => s.isPrefixOf st.stop_id)
          st rest (by simp [h])]
        simpa [firstMatchTime] using ih
  refine ⟨h1, ?_⟩
  intro hnone
  rw [h1]
  unfold firstMatchTime
  rw [List.find?_eq_none.mpr]
  · rfl
  · intro st hst
    simpa [List.isPrefixOf_iff_prefix] using hnone st hst

theorem extractArrival_first_prefix_match_witness :
    extractArrival ['R','3','5'] .northbound
        [⟨['X','1'], some 5, none⟩] =
      firstMatchTime ['R','3','5'] [⟨['X','1'], some 5, none⟩]
      ∧ extractArrival ['R','3','5'] .northbound
          [⟨['X','1'], some 5, none⟩] = none :=
  ⟨(extractArrival_first_prefix_match ['R','3','5'] .northbound
      [⟨['X','1'], some 5, none⟩]).1,
    (extractArrival_first_prefix_match ['R','3','5'] .northbound
      [⟨['X','1'], some 5, none⟩]).2 (by decide)⟩

/-- Claim C1: for every feed and station configuration with a configured
route filter, each bound's output list of `parse_feed` has length at most
5, is sorted ascending by arrival time, every element's route id is among
the monitored routes, and the list is the 5-element truncation of a stable
sort of the collected trains (a sorted permutation in which any two trains
already feed-ordered consistently with their arrival times — in particular
ties — keep their feed order). -/
theorem parse_feed_sorted_capped_filtered :
    ∀ (feed : List FeedEntity) (stop_id : Str) (rids : List Str)
      (trips_map : Str → Option TripInfo) (d : Direction),
      (boundList (parse_feed feed stop_id (some rids) trips_map) d).length ≤ 5
      ∧ List.Sorted trainLE
          (boundList (parse_feed feed stop_id (some rids) trips_map) d)
      ∧ (∀ t ∈ boundList (parse_feed feed stop_id (some rids) trips_map) d,
          t.route_id ∈ rids)
      ∧ ∃ full : List Train,
          full.Perm (boundList (collectTrains feed stop_id (some rids) trips_map) d)
          ∧ List.Sorted trainLE full
          ∧ (∀ t1 t2 : Train, trainLE t1 t2 →
              [t1, t2].Sublist
                (boundList (collectTrains feed stop_id (some rids) trips_map) d) →
              [t1, t2].Sublist full)
          ∧ boundList (parse_feed feed stop_id (some rids) trips_map) d =
              full.take 5 := by
  intro feed stop_id rids trips_map d
  rw [boundList_parse_feed]
  set collected := boundList (collectTrains feed stop_id (some rids) trips_map) d
    with hcoll
  have hsorted : List.Sorted trainLE (List.insertionSort trainLE collected) :=
    List.sorted_insertionSort trainLE collected
  refine ⟨?_, ?_, ?_, ?_⟩
  · unfold sortAndCap
    rw [List.length_take]
    exact min_le_left _ _
  · exact hsorted.sublist (List.take_sublist _ _)
  · intro t ht
    have hmem : t ∈ collected := by
      have h1 : t ∈ List.insertionSort trainLE collected :=
        (List.take_sublist _ _).subset ht
      exact (List.perm_insertionSort trainLE collected).mem_iff.mp h1
    have hOK := collectTrains_routesOK feed stop_id rids trips_map
    cases d with
    | northbound => exact hOK.1 t hmem
    | southbound => exact hOK.2 t hmem
  · refine ⟨List.insertionSort trainLE collected,
      List.perm_insertionSort trainLE collected, hsorted, ?_, rfl⟩
    intro t1 t2 hle hsub
    exact List.pair_sublist_insertionSort hle hsub

theorem parse_feed_sorted_capped_filtered_witness :
    (boundList
        (parse_feed
          [⟨some ⟨['t','1'], ['R'], [⟨['R','3','5','S'], some 600, none⟩]⟩⟩,
           ⟨some ⟨['t','2'], ['R'], [⟨['R','3','5','S'], some 60, none⟩]⟩⟩]
          ['R','3','5'] (some [['R']])
          (fun tid =>
            if tid = ['t','1'] then some ⟨['B'], .southbound, ['R']⟩
            else if tid = ['t','2'] then some ⟨['C'], .southbound, ['R']⟩
            else none))
        .southbound).length ≤ 5
      ∧ (⟨['R'], ['C'], 60, .southbound⟩ : Train).route_id ∈ [(['R'] : Str)] :=
  ⟨(parse_feed_sorted_capped_filtered
      [⟨some ⟨['t','1'], ['R'], [⟨['R','3','5','S'], some 600, none⟩]⟩⟩,
       ⟨some ⟨['t','2'], ['R'], [⟨['R','3','5','S'], some 60, none⟩]⟩⟩]
      ['R','3','5'] [['R']]
      (fun tid =>
        if tid = ['t','1'] then some ⟨['B'], .southbound, ['R']⟩
        else if tid = ['t','2'] then some ⟨['C'], .southbound, ['R']⟩
        else none) .southbound).1,
    (parse_feed_sorted_capped_filtered
      [⟨some ⟨['t','1'], ['R'], [⟨['R','3','5','S'], some 600, none⟩]⟩⟩,
       ⟨some ⟨['t','2'], ['R'], [⟨['R','3','5','S'], some 60, none⟩]⟩⟩]
      ['R','3','5'] [['R']]
      (fun tid =>
        if tid = ['t','1'] then some ⟨['B'], .southbound, ['R']⟩
        else if tid = ['t','2'] then some ⟨['C'], .southbound, ['R']⟩
        else none) .southbound).2.2.1 ⟨['R'], ['C'], 60, .southbound⟩ (by decide)⟩

/-- Claim C5: the marquee offset is a pure, deterministic function of
(text_width, available_width, frame_counter, cycle params) — equal inputs
give equal offsets — the offset is always nonnegative, and it is 0
whenever the text fits (`text_width ≤ available_width`). -/
theorem slide_offset_pure_nonneg :
    ∀ text_width max_width frame_count pause cycle : ℕ,
      0 ≤ calculate_slide_offset text_width max_width frame_count pause cycle
      ∧ (∀ w' a' f' p' c' : ℕ, text_width = w' → max_width = a' →
          frame_count = f' → pause = p' → cycle = c' →
          calculate_slide_offset text_width max_width frame_count pause cycle =
            calculate_slide_offset w' a' f' p' c')
      ∧ (text_width ≤ max_width →
          calculate_slide_offset text_width max_width frame_count pause cycle = 0) := by
  intro w a f p c
  refine ⟨?_, ?_, ?_⟩
  · have hfd : ∀ x : ℤ, x.fdiv 2 = x / 2 := fun x => Int.fdiv_eq_ediv _ (by norm_num)
    have key : ∀ X Y : ℤ, X ≤ 0 → Y ≤ 0 → 0 ≤ X.tdiv Y := by
      intro X Y hX hY
      have h := Int.neg_tdiv_neg (-X) (-Y)
      simp only [neg_neg] at h
      rw [h]
      exact Int.tdiv_nonneg (by omega) (by omega)
    dsimp only [calculate_slide_offset]
    simp only [hfd]
    split_ifs with h1 h2 h3 h4 h5 h6
    · exact le_refl 0
    · exact le_refl 0
    · exact le_refl 0
    · exact Int.tdiv_nonneg (mul_nonneg (by omega) (by omega)) (by omega)
    · omega
    · exact le_refl 0
    · have hflt : ((f % c : ℕ) : ℤ) < (c : ℤ) := by
        exact_mod_cast Nat.mod_lt f (Nat.pos_of_ne_zero h2)
      have h7 : ((w : ℤ) - (a : ℤ) + 5) * (((c : ℤ) - 2 * (p : ℤ)) / 2) -
            (((f % c : ℕ) : ℤ) - ((p : ℤ) + ((c : ℤ) - 2 * (p : ℤ)) / 2 + (p : ℤ))) *
              ((w : ℤ) - (a : ℤ) + 5) =
          ((w : ℤ) - (a : ℤ) + 5) *
            ((((c : ℤ) - 2 * (p : ℤ)) / 2) -
              (((f % c : ℕ) : ℤ) - ((p : ℤ) + ((c : ℤ) - 2 * (p : ℤ)) / 2 + (p : ℤ)))) := by
        ring
      rw [h7]
      rcases lt_trichotomy (((c : ℤ) - 2 * (p : ℤ)) / 2) 0 with hneg | hz | hpos
      · exact key _ _ (mul_nonpos_iff.mpr (Or.inr ⟨by omega, by omega⟩)) (by omega)
      · exact absurd hz h6
      · exact Int.tdiv_nonneg (mul_nonneg (by omega) (by omega)) (by omega)
  · intro w' a' f' p' c' e1 e2 e3 e4 e5
    subst e1; subst e2; subst e3; subst e4; subst e5
    rfl
  · intro h
    unfold calculate_slide_offset
    rw [if_pos h]

theorem slide_offset_pure_nonneg_witness :
    0 ≤ calculate_slide_offset 3 5 7 30 120
      ∧ calculate_slide_offset 3 5 7 30 120 = calculate_slide_offset 3 5 7 30 120
      ∧ calculate_slide_offset 3 5 7 30 120 = 0 :=
  ⟨(slide_offset_pure_nonneg 3 5 7 30 120).1,
    (slide_offset_pure_nonneg 3 5 7 30 120).2.1 3 5 7 30 120 rfl rfl rfl rfl rfl,
    (slide_offset_pure_nonneg 3 5 7 30 120).2.2 (by norm_num)⟩

/-- Claim C6: when the text is wider than the available width, the offset
follows the four-phase cycle on `phase = frame_counter mod cycle_duration`
with `slide_distance = text_width - available_width + margin` (margin 5)
and `slide_frames = (cycle_duration - 2*pause_frames) / 2`: it is 0 during
the first `pause_frames` (in particular at phase 0), ramps linearly with
floor truncation from 0 towards `slide_distance` over the next
`slide_frames`, equals `slide_distance` during the midpoint pause, and
ramps linearly back toward 0 for the remaining frames.  Stated for
well-formed cycle parameters (`0 < pause_frames` and
`2*pause_frames + 2 ≤ cycle_duration`; the shipped configuration is
`pause_frames = 30`, `cycle_duration = 120`). -/
theorem slide_offset_four_phase :
    ∀ text_width max_width frame_count pause cycle : ℕ,
      max_width < text_width → 0 < pause → 2 * pause + 2 ≤ cycle →
      ((frame_count % cycle < pause →
          calculate_slide_offset text_width max_width frame_count pause cycle = 0)
        ∧ (frame_count % cycle = 0 →
            calculate_slide_offset text_width max_width frame_count pause cycle = 0)
        ∧ (pause ≤ frame_count % cycle →
            frame_count % cycle < pause + (cycle - 2 * pause) / 2 →
            calculate_slide_offset text_width max_width frame_count pause cycle =
              (((frame_count % cycle - pause) * (text_width - max_width + 5)) /
                ((cycle - 2 * pause) / 2) : ℕ))
        ∧ (pause + (cycle - 2 * pause) / 2 ≤ frame_count % cycle →
            frame_count % cycle < pause + (cycle - 2 * pause) / 2 + pause →
            calculate_slide_offset text_width max_width frame_count pause cycle =
              ((text_width - max_width + 5 : ℕ) : ℤ))
        ∧ (pause + (cycle - 2 * pause) / 2 + pause ≤ frame_count % cycle →
            calculate_slide_offset text_width max_width frame_count pause cycle =
              (((text_width - max_width + 5) * ((cycle - 2 * pause) / 2) -
                  (frame_count % cycle - (pause + (cycle - 2 * pause) / 2 + pause)) *
                    (text_width - max_width + 5)) /
                ((cycle - 2 * pause) / 2) : ℕ))) := by
  intro w a f p c hwa hp hc
  have hc0 : ¬ (c = 0) := by omega
  have hwa' : ¬ (w ≤ a) := by omega
  have hFlt : f % c < c := Nat.mod_lt _ (by omega)
  have e1 : ((c : ℤ) - 2 * (p : ℤ)).fdiv 2 = (((c - 2 * p) / 2 : ℕ) : ℤ) := by
    rw [Int.fdiv_eq_ediv _ (by norm_num)]
    omega
  have e2 : ((w : ℤ) - (a : ℤ) + 5) = ((w - a + 5 : ℕ) : ℤ) := by omega
  have heval : calculate_slide_offset w a f p c =
      (if ((f % c : ℕ) : ℤ) < (p : ℤ) then 0
       else if ((f % c : ℕ) : ℤ) < (p : ℤ) + (((c - 2 * p) / 2 : ℕ) : ℤ) then
         ((((f % c : ℕ) : ℤ) - (p : ℤ)) * ((w - a + 5 : ℕ) : ℤ)).tdiv
           (((c - 2 * p) / 2 : ℕ) : ℤ)
       else if ((f % c : ℕ) : ℤ) <
           (p : ℤ) + (((c - 2 * p) / 2 : ℕ) : ℤ) + (p : ℤ) then
         ((w - a + 5 : ℕ) : ℤ)
       else if (((c - 2 * p) / 2 : ℕ) : ℤ) = 0 then 0
       else
         (((w - a + 5 : ℕ) : ℤ) * (((c - 2 * p) / 2 : ℕ) : ℤ) -
             (((f % c : ℕ) : ℤ) -
                 ((p : ℤ) + (((c - 2 * p) / 2 : ℕ) : ℤ) + (p : ℤ))) *
               ((w - a + 5 : ℕ) : ℤ)).tdiv (((c - 2 * p) / 2 : ℕ) : ℤ)) := by
    dsimp only [calculate_slide_offset]
    rw [if_neg hwa', if_neg hc0, e1, e2]
  refine ⟨?_, ?_, ?_, ?_, ?_⟩
  · intro h
    rw [heval, if_pos (by exact_mod_cast h)]
  · intro h
    rw [heval, if_pos (by rw [h]; exact_mod_cast hp)]
  · intro h1 h2
    rw [heval, if_neg (by exact_mod_cast not_lt.mpr h1),
      if_pos (by push_cast; omega)]
    have hsub : ((f % c : ℕ) : ℤ) - (p : ℤ) = ((f % c - p : ℕ) : ℤ) := by omega
    rw [hsub, ← Nat.cast_mul, ← Int.ofNat_tdiv]
  · intro h1 h2
    rw [heval, if_neg (by push_cast; omega), if_neg (by push_cast; omega),
      if_pos (by push_cast; omega)]
  · intro h1
    have hsf : 0 < (c - 2 * p) / 2 := by omega
    rw [heval, if_neg (by push_cast; omega), if_neg (by push_cast; omega),
      if_neg (by push_cast; omega), if_neg (by push_cast; omega)]
    have hsub : ((f % c : ℕ) : ℤ) -
        ((p : ℤ) + (((c - 2 * p) / 2 : ℕ) : ℤ) + (p : ℤ)) =
        ((f % c - (p + (c - 2 * p) / 2 + p) : ℕ) : ℤ) := by
      push_cast
      omega
    have hple : f % c - (p + (c - 2 * p) / 2 + p) ≤ (c - 2 * p) / 2 := by omega
    have hmul : (f % c - (p + (c - 2 * p) / 2 + p)) * (w - a + 5) ≤
        (w - a + 5) * ((c - 2 * p) / 2) := by
      calc (f % c - (p + (c - 2 * p) / 2 + p)) * (w - a + 5) ≤
            ((c - 2 * p) / 2) * (w - a + 5) := Nat.mul_le_mul_right _ hple
        _ = (w - a + 5) * ((c - 2 * p) / 2) := Nat.mul_comm _ _
    rw [hsub, ← Nat.cast_mul, ← Nat.cast_mul, ← Nat.cast_sub hmul, ← Int.ofNat_tdiv]

theorem slide_offset_four_phase_witness :
    calculate_slide_offset 40 28 45 30 120 =
      ((((45 % 120 - 30) * (40 - 28 + 5)) / ((120 - 2 * 30) / 2) : ℕ) : ℤ)
      ∧ calculate_slide_offset 40 28 240 30 120 = 0
      ∧ calculate_slide_offset 40 28 75 30 120 = ((40 - 28 + 5 : ℕ) : ℤ) :=
  ⟨(slide_offset_four_phase 40 28 45 30 120 (by norm_num) (by norm_num)
      (by norm_num)).2.2.1 (by norm_num) (by norm_num),
    (slide_offset_four_phase 40 28 240 30 120 (by norm_num) (by norm_num)
      (by norm_num)).2.1 (by norm_num),
    (slide_offset_four_phase 40 28 75 30 120 (by norm_num) (by norm_num)
      (by norm_num)).2.2.2.1 (by norm_num) (by norm_num)⟩

/-- A pixel of row `idx`'s badge or countdown column is blacked by that
same row's pair of clipping rectangles, whatever was drawn before. -/
theorem clip_row_black (idx : ℕ) (p : Pt)
    (hreg : inBadgeColumn idx p ∨ inTimeColumn idx p) (c : Canvas) :
    draw_clipping_rectangles COL0_WIDTH (rowY idx) c p = black := by
  obtain ⟨x, y⟩ := p
  simp only [inBadgeColumn, inTimeColumn, rowY, HEADER_HEIGHT, ROW_HEIGHT,
    COL0_WIDTH, COL1_WIDTH, DISPLAY_WIDTH] at hreg
  simp only [draw_clipping_rectangles, fillRect, rowY, HEADER_HEIGHT, ROW_HEIGHT,
    COL0_WIDTH, DEST_MAX_WIDTH, DISPLAY_WIDTH]
  rcases hreg with hb | ht <;> split_ifs <;> first | rfl | omega

/-- Clipping rectangles preserve an already-black pixel (they fill with
black). -/
theorem clip_preserves_black (x_pos y_pos : ℕ) (p : Pt) (c : Canvas)
    (h : c p = black) :
    draw_clipping_rectangles x_pos y_pos c p = black := by
  simp only [draw_clipping_rectangles, fillRect]
  split_ifs <;> first | rfl | exact h

theorem drawClips_preserves_black (rs : List RowPaints) (i : ℕ) (p : Pt)
    (c : Canvas) (h : c p = black) : drawClips i rs c p = black := by
  induction rs generalizing i c with
  | nil => exact h
  | cons r rest ih =>
    exact ih (i + 1) _ (clip_preserves_black _ _ _ _ h)

/-- The clip pass blacks every badge/countdown-column pixel of every row
that has a rendered train. -/
theorem drawClips_black (rs : List RowPaints) (i j : ℕ) (p : Pt) (c : Canvas)
    (hj : j < rs.length)
    (hreg : inBadgeColumn (i + j) p ∨ inTimeColumn (i + j) p) :
    drawClips i rs c p = black := by
  induction rs generalizing i j c with
  | nil => simp at hj
  | cons r rest ih =>
    cases j with
    | zero =>
      exact drawClips_preserves_black rest (i + 1) p _
        (clip_row_black i p (by simpa using hreg) _)
    | succ j' =>
      have hreg' : inBadgeColumn ((i + 1) + j') p ∨ inTimeColumn ((i + 1) + j') p := by
        have e : (i + 1) + j' = i + (j' + 1) := by omega
        rwa [e]
      exact ih (i + 1) j' _ (by simpa using hj) hreg'

/-- The badge/countdown pass depends only on the badge and countdown
paints and on the incoming pixel value. -/
theorem drawBadgesTimes_congr (rs rs' : List RowPaints) (p : Pt)
    (c c' : Canvas)
    (hmap : rs.map (fun r => r.2) = rs'.map (fun r => r.2))
    (h : c p = c' p) :
    drawBadgesTimes rs c p = drawBadgesTimes rs' c' p := by
  induction rs generalizing rs' c c' with
  | nil =>
    cases rs' with
    | nil => exact h
    | cons r' rest' => simp at hmap
  | cons r rest ih =>
    cases rs' with
    | nil => simp at hmap
    | cons r' rest' =>
      simp only [List.map_cons, List.cons.injEq] at hmap
      refine ih rest' _ _ hmap.2 ?_
      simp only [applyPaint, hmap.1, h]

/-- Claim C9, counterexample: in a frame rendering a single train, the
code draws clipping rectangles only for row 0, so destination ink landing
in row 1's badge-column area (here pixel `(0, 19)`) survives to the final
frame: two frames differing only in the destination paint differ there,
refuting destination-independence of the badge-column and
countdown-column areas of *each* row. -/
theorem render_frame_row1_unclipped_counterexample :
    render_frame [(fun _ => some (9, 9, 9), fun _ => none, fun _ => none)]
        (fun _ => none) (0, 19) = (9, 9, 9)
      ∧ render_frame [(fun _ => none, fun _ => none, fun _ => none)]
          (fun _ => none) (0, 19) = black
      ∧ inBadgeColumn 1 (0, 19)
      ∧ ((9, 9, 9) : Color) ≠ black := by
  refine ⟨rfl, rfl, ?_, by decide⟩
  simp [inBadgeColumn, rowY, HEADER_HEIGHT, ROW_HEIGHT, COL0_WIDTH]

/-- Claim C9 (amended): the fixed draw order of `render_frame`
(destination texts first, then opaque black clipping rectangles over the
badge-column and countdown-column areas of each row that has a rendered
train (`trains[:2]`), then badge and countdown text, then the header band
last) guarantees that destination-text overflow has no effect on the
final pixels of the badge-column and countdown-column regions of the rows
with rendered trains — both rows whenever two trains are rendered — and
that no later draw occludes the header: every pixel the header paints has
the header's colour in the final frame.  (Rows without a train get no
clipping rectangles, so their regions carry no such guarantee.) -/
theorem render_frame_clipping_and_header :
    ∀ (rows rows' : List RowPaints) (header : Paint) (idx : ℕ) (p : Pt),
      (rows.map (fun r => r.2) = rows'.map (fun r => r.2) →
        idx < rows.length → idx < 2 →
        inBadgeColumn idx p ∨ inTimeColumn idx p →
        render_frame rows header p = render_frame rows' header p)
      ∧ (∀ col : Color, header p = some col →
          render_frame rows header p = col) := by
  intro rows rows' header idx p
  constructor
  · intro hmap hlen h2 hreg
    have hlen' : rows'.length = rows.length := by
      have h := congrArg List.length hmap
      simpa using h.symm
    have htk : (rows.take 2).map (fun r => r.2) =
        (rows'.take 2).map (fun r => r.2) := by
      rw [List.map_take, List.map_take, hmap]
    have hb1 : drawClips 0 (rows.take 2)
        (drawDests (rows.take 2) (fun _ => black)) p = black :=
      drawClips_black _ 0 idx p _
        (by simp only [List.length_take]; omega) (by simpa using hreg)
    have hb2 : drawClips 0 (rows'.take 2)
        (drawDests (rows'.take 2) (fun _ => black)) p = black :=
      drawClips_black _ 0 idx p _
        (by simp only [List.length_take]; omega) (by simpa using hreg)
    unfold render_frame
    simp only [applyPaint]
    rw [drawBadgesTimes_congr (rows.take 2) (rows'.take 2) p _ _ htk
      (hb1.trans hb2.symm)]
  · intro col hcol
    simp only [render_frame, applyPaint, hcol, Option.getD_some]

theorem render_frame_clipping_and_header_witness :
    render_frame [(fun _ => some (9, 9, 9), fun _ => none, fun _ => none)]
        (fun q => if q = (1, 1) then some (7, 7, 7) else none) (0, 7) =
      render_frame [(fun _ => none, fun _ => none, fun _ => none)]
        (fun q => if q = (1, 1) then some (7, 7, 7) else none) (0, 7)
      ∧ render_frame [(fun _ => some (9, 9, 9), fun _ => none, fun _ => none)]
          (fun q => if q = (1, 1) then some (7, 7, 7) else none) (1, 1) =
        (7, 7, 7) :=
  ⟨(render_frame_clipping_and_header
      [(fun _ => some (9, 9, 9), fun _ => none, fun _ => none)]
      [(fun _ => none, fun _ => none, fun _ => none)]
      (fun q => if q = (1, 1) then some (7, 7, 7) else none) 0 (0, 7)).1
      rfl (by norm_num) (by norm_num)
      (Or.inl (by simp [inBadgeColumn, rowY, HEADER_HEIGHT, ROW_HEIGHT, COL0_WIDTH])),
    (render_frame_clipping_and_header
      [(fun _ => some (9, 9, 9), fun _ => none, fun _ => none)]
      [(fun _ => none, fun _ => none, fun _ => none)]
      (fun q => if q = (1, 1) then some (7, 7, 7) else none) 0 (1, 1)).2
      (7, 7, 7) rfl⟩

end MTA
